import Mathlib

/-!
Verification of the filter construction and application engine of the MrMagic
repository (`src/filters.py`) against its natural-language specification.

Modelling conventions:
* a numpy 2D array is a rectangular `List (List ℚ)` (row-major); machine
  floats are modelled as exact rationals, which is faithful for every claim
  checked here (all concrete values and comparisons are exact in ℚ);
* Python slice notation `l[a:b]` (with negative indices allowed) is embedded
  by `pySlice`, and `np.roll` by `rollList`;
* external library primitives (`scipy.signal.get_window`,
  `scipy.interpolate.interp1d`, `np.sqrt`, `scipy.signal.resample`) are passed
  as explicit function parameters, so every theorem quantifies over all
  implementations of those primitives; only the contracts the source relies
  on (profile length, resampled shape) appear as hypotheses;
* `np.mean` of an empty slice yields NaN in numpy; in ℚ the embedded
  `meanA` yields `0` there (division by zero).  The claims are settled only
  at inputs where this difference does not matter (nonempty slices, or
  counterexamples that hold under either reading).
-/

/-- Row-major 2D array of rationals, the payload type of the filter engine. -/
abbrev Array2D := List (List ℚ)

/-- Number of columns, `np.shape(w)[1]`: the length of the first row
(0 for an empty array). -/
def colsOf (W : Array2D) : ℕ :=
  (W.headD []).length

/-- Rectangularity: every row has the same length as the first row. -/
def Rect (W : Array2D) : Prop :=
  ∀ row ∈ W, row.length = colsOf W

/-- Python index normalisation for slice bounds: a negative index counts from
the end, and indices are clamped into `[0, n]`. -/
def pyIdx (n : ℕ) (i : ℤ) : ℕ :=
  if i < 0 then ((n : ℤ) + i).toNat else min i.toNat n

/-- Python slice `l[a:b]` with possibly negative bounds. -/
def pySlice (a b : ℤ) (l : List α) : List α :=
  (l.take (pyIdx l.length b)).drop (pyIdx l.length a)

/-- Embedding of `np.roll(l, k)`: cyclic shift of a list to the right by `k`
(any integer), expressed through `List.rotate` (which rotates left). -/
def rollList (k : ℤ) (l : List α) : List α :=
  if l.length = 0 then l else l.rotate (((l.length : ℤ) - k) % (l.length : ℤ)).toNat

/-- The all-ones matrix `np.ones((r, c))`. -/
def onesA (r c : ℕ) : Array2D :=
  List.replicate r (List.replicate c 1)

/-- Elementwise sum of two same-shaped arrays (numpy `+`). -/
def matAdd (A B : Array2D) : Array2D :=
  List.zipWith (List.zipWith (· + ·)) A B

/-- Elementwise difference of two same-shaped arrays (numpy `-`). -/
def matSub (A B : Array2D) : Array2D :=
  List.zipWith (List.zipWith (· - ·)) A B

/-- Embedding of `np.mean` over a 2D slice: the sum of all entries divided by
the number of entries.  On an empty slice numpy yields NaN; here the ℚ
convention `x / 0 = 0` applies instead, noted where it could matter. -/
def meanA (W : Array2D) : ℚ :=
  ((W.map List.sum).sum) / ((W.map List.length).sum : ℚ)

/-- Embedding of `np.copy`: at the level of array values a copy is the
identity; numpy allocates a fresh buffer, which is what makes `applyStack`
leave its argument unmutated. -/
def npCopy (a : Array2D) : Array2D := a

/-- Embedding of the class `GFilter` (src/filters.py lines 1399-1411): a
transform paired with a descriptor.  The descriptor contents never influence
the claims checked here, so parameters are kept as a plain association list. -/
structure GFilter where
  function : Array2D → Array2D
  params : List (String × String)

/-- Embedding of `GFilter.__init__`: the constructor always installs the
identity transform `lambda x: x` before any builder reassigns it. -/
def GFilter.init (Par : List (String × String)) : GFilter :=
  { function := fun x => x, params := Par }

/-- Embedding of `applyStack` (src/filters.py lines 1414-1439): copy the data,
then left-fold the transforms of the stack over it in order. -/
def applyStack (Data : Array2D) (Stack : List GFilter) : Array2D :=
  Stack.foldl (fun filtered filt => filt.function filtered) (npCopy Data)

/-- Embedding of `mask` (src/filters.py lines 1297-1320): copy the image, zero
the entries with `|v| < Threshold`, set the entries with `|v| > 0` to one,
then take absolute values. -/
def mask (Image : Array2D) (Threshold : ℚ) : Array2D :=
  let m1 := Image.map (List.map (fun v => if |v| < Threshold then 0 else v))
  let m2 := m1.map (List.map (fun v => if |v| > 0 then 1 else v))
  m2.map (List.map (fun v => |v|))

/-- Embedding of `computeDCOffset` (src/filters.py lines 1231-1250).  The four
"corner" regions are the literal slices of the source: `[:Size]` keeps the
first `Size` rows/columns while `[:-Size]` keeps all but the last `Size`
rows/columns, and the average of the four region means is subtracted from
every element. -/
def computeDCOffset (Kspace : Array2D) (Size : ℤ) : Array2D :=
  let corner1 := meanA ((pySlice 0 Size Kspace).map (pySlice 0 Size))
  let corner2 := meanA ((pySlice 0 (-Size) Kspace).map (pySlice 0 Size))
  let corner3 := meanA ((pySlice 0 (-Size) Kspace).map (pySlice 0 (-Size)))
  let corner4 := meanA ((pySlice 0 Size Kspace).map (pySlice 0 (-Size)))
  Kspace.map (List.map (fun v => v - (corner1 + corner2 + corner3 + corner4) / 4))

/-- Shape contract of the external primitive `scipy.signal.resample` along
axis 0: the result has the requested number of rows and is rectangular.  The
numeric content of the band-limited resampling never matters for the claims,
so every theorem quantifies over all implementations satisfying this. -/
def ResampleOK (re : Array2D → ℕ → Array2D) : Prop :=
  ∀ w n, (re w n).length = n ∧ Rect (re w n)

/-- Axis-0 block of `resizeToMatch` (src/filters.py lines 1201-1214): pad with
zero rows at the end and roll to the requested center (explicit `Center[0]`,
or `floor(dZero/2)`), or crop to the central slice
`[-ceil(dZero/2) : floor(dZero/2)]` when `dZero < 0`. -/
def resizeAxis0 (W : Array2D) (dZero : ℤ) (Center : Option (ℤ × ℤ)) : Array2D :=
  if 0 < dZero then
    rollList (match Center with | some c => c.1 | none => dZero / 2)
      (W ++ List.replicate dZero.toNat (List.replicate (colsOf W) 0))
  else if dZero < 0 then
    pySlice (-((dZero + 1) / 2)) (dZero / 2) W
  else W

/-- Axis-1 block of `resizeToMatch` (src/filters.py lines 1216-1227), the same
pad-and-roll or central-crop step applied inside every row. -/
def resizeAxis1 (W : Array2D) (dOne : ℤ) (Center : Option (ℤ × ℤ)) : Array2D :=
  if 0 < dOne then
    (W.map fun row => row ++ List.replicate dOne.toNat 0).map
      (rollList (match Center with | some c => c.2 | none => dOne / 2))
  else if dOne < 0 then
    W.map (pySlice (-((dOne + 1) / 2)) (dOne / 2))
  else W

/-- Embedding of `resizeToMatch` (src/filters.py lines 1161-1228).  With the
constant-pixel contour the array is first resampled on axis 0 to
`int(rows * Size[0] / Size[1])` rows (the `int()` truncation of the float
product is modelled as the rational floor; the claims below are insensitive to
the exact row count the external primitive is asked for).  Both axis
differences are computed before either axis is adjusted, exactly as in the
source. -/
def resizeToMatch (re : Array2D → ℕ → Array2D) (Window : Array2D)
    (Size : ℕ × ℕ) (Cont : Bool) (Center : Option (ℤ × ℤ)) : Array2D :=
  let W0 := if Cont then re Window (Window.length * Size.1 / Size.2) else Window
  resizeAxis1 (resizeAxis0 W0 ((Size.1 : ℤ) - W0.length) Center)
    ((Size.2 : ℤ) - colsOf W0) Center

/-- Rotational construction shared verbatim by `build2DLP` (lines 69-84) and
`build2DBP` (lines 352-367): a `Diameter × Diameter` grid of distances from
the center pixel (`distX = linspace(-lenX, lenX, Diameter)` has unit spacing,
so `distX[i] = -lenX + i` exactly), with the 1D profile interpolated at each
distance not exceeding `lenX` and zero beyond.  `np.sqrt` and the
`scipy.interpolate.interp1d` interpolant are the external parameters `sqrtE`
and `interpE` (the latter receives the grid and the profile). -/
def radialWindow (sqrtE : ℚ → ℚ) (interpE : List ℚ → List ℚ → ℚ → ℚ)
    (window1 : List ℚ) (Diameter : ℕ) : Array2D :=
  let lenX : ℚ := ((Diameter : ℚ) - 1) / 2
  let distX : List ℚ := (List.range Diameter).map (fun (i : ℕ) => -lenX + (i : ℚ))
  (List.range Diameter).map fun (i : ℕ) =>
    (List.range Diameter).map fun (j : ℕ) =>
      let cutoff := sqrtE ((-lenX + (j : ℚ)) ^ 2 + (-lenX + (i : ℚ)) ^ 2)
      if cutoff ≤ lenX then interpE distX window1 cutoff else 0

/-- Outer-product construction of `build2DLP` (lines 64-68):
`np.outer(window1, window1)`. -/
def outerWindow (window1 : List ℚ) : Array2D :=
  window1.map (fun a => window1.map (fun b => a * b))

/-- Embedding of `build2DLP` (src/filters.py lines 18-86).  `getW` is the
external `scipy.signal.get_window` profile provider for the chosen window
family. -/
def build2DLP (getW : ℕ → List ℚ) (sqrtE : ℚ → ℚ)
    (interpE : List ℚ → List ℚ → ℚ → ℚ) (re : Array2D → ℕ → Array2D)
    (Dim : ℕ × ℕ) (Diameter : ℕ) (Outer : Bool) (Cont : Bool) : Array2D :=
  let D := if Diameter = 0 then max Dim.1 Dim.2 else Diameter
  if Outer then resizeToMatch re (outerWindow (getW D)) Dim Cont none
  else resizeToMatch re (radialWindow sqrtE interpE (getW D) D) Dim Cont none

/-- Embedding of `build2DHP` (src/filters.py lines 172-221):
`np.ones(Dim) - build2DLP(...)`. -/
def build2DHP (getW : ℕ → List ℚ) (sqrtE : ℚ → ℚ)
    (interpE : List ℚ → List ℚ → ℚ → ℚ) (re : Array2D → ℕ → Array2D)
    (Dim : ℕ × ℕ) (Diameter : ℕ) (Outer : Bool) (Cont : Bool) : Array2D :=
  matSub (onesA Dim.1 Dim.2) (build2DLP getW sqrtE interpE re Dim Diameter Outer Cont)

/-- Embedding of `build2DBP` (src/filters.py lines 307-369): a profile of
length `Width` is left-padded with `Diameter - Width` zeros and then fed to
the same rotational construction and resize as the low-pass builder. -/
def build2DBP (getW : ℕ → List ℚ) (sqrtE : ℚ → ℚ)
    (interpE : List ℚ → List ℚ → ℚ → ℚ) (re : Array2D → ℕ → Array2D)
    (Dim : ℕ × ℕ) (Diameter Width : ℕ) (Cont : Bool) : Array2D :=
  let D := if Diameter = 0 then max Dim.1 Dim.2 else Diameter
  let window1 := getW Width
  let window2 := List.replicate (D - window1.length) 0 ++ window1
  resizeToMatch re (radialWindow sqrtE interpE window2 D) Dim Cont none

/-- Embedding of `build2DBS` (src/filters.py lines 453-501):
`np.ones(Dim) - build2DBP(...)`. -/
def build2DBS (getW : ℕ → List ℚ) (sqrtE : ℚ → ℚ)
    (interpE : List ℚ → List ℚ → ℚ → ℚ) (re : Array2D → ℕ → Array2D)
    (Dim : ℕ × ℕ) (Diameter Width : ℕ) (Cont : Bool) : Array2D :=
  matSub (onesA Dim.1 Dim.2) (build2DBP getW sqrtE interpE re Dim Diameter Width Cont)

/-- The `windowLine` assembled by `build2DVBP` (src/filters.py lines 619-625):
the source computes `post = Dim[1] + floor(Width/2) - Center` and
`pre = Dim[1] - post - Width`; a negative `pre` truncates the profile from the
left and resets `pre` to 0 (so the left zero block is empty, which is what
the first branch builds). -/
def vbpLine (getW : ℕ → List ℚ) (Dim : ℕ × ℕ) (Center : ℤ) (Width : ℕ) : List ℚ :=
  let window1 := getW Width
  let post : ℤ := (Dim.2 : ℤ) + ((Width / 2 : ℕ) : ℤ) - Center
  let pre : ℤ := (Dim.2 : ℤ) - post - (Width : ℤ)
  if pre < 0 then window1.drop pre.natAbs ++ List.replicate post.toNat 0
  else List.replicate pre.toNat 0 ++ window1 ++ List.replicate post.toNat 0

/-- Embedding of `build2DVBP` (src/filters.py lines 585-628): the assembled
line broadcast to every row of a `Dim`-shaped array.  `np.zeros(post)` raises
for negative `post`, and the broadcast `window2[:, ] = windowLine` raises
when the assembled line is longer than `Dim[1]` (the line is never shorter
than `Dim[1]`), so both failure modes are `none`. -/
def build2DVBP (getW : ℕ → List ℚ) (Dim : ℕ × ℕ) (Center : ℤ) (Width : ℕ) :
    Option Array2D :=
  if (Dim.2 : ℤ) + ((Width / 2 : ℕ) : ℤ) - Center < 0 then none
  else if (vbpLine getW Dim Center Width).length = Dim.2 then
    some (List.replicate Dim.1 (vbpLine getW Dim Center Width))
  else none

/-- Embedding of `build2DVBS` (src/filters.py lines 704-743):
`np.ones(Dim) - build2DVBP(...)`; a failure of the band-pass construction
propagates. -/
def build2DVBS (getW : ℕ → List ℚ) (Dim : ℕ × ℕ) (Center : ℤ) (Width : ℕ) :
    Option Array2D :=
  (build2DVBP getW Dim Center Width).map (fun M => matSub (onesA Dim.1 Dim.2) M)

/-- Embedding of the numpy transpose `.T` on a rectangular array. -/
def transposeA (W : Array2D) : Array2D :=
  (List.range (colsOf W)).map (fun j => W.map (fun row => row.getD j 0))

/-- Embedding of `build2DHBP` (src/filters.py lines 819-853):
`build2DVBP(Window, Dim[::-1], Center, Width).T`. -/
def build2DHBP (getW : ℕ → List ℚ) (Dim : ℕ × ℕ) (Center : ℤ) (Width : ℕ) :
    Option Array2D :=
  (build2DVBP getW (Dim.2, Dim.1) Center Width).map transposeA

/-- Embedding of `build2DHBS` (src/filters.py lines 929-968):
`np.ones(Dim) - build2DHBP(...)`. -/
def build2DHBS (getW : ℕ → List ℚ) (Dim : ℕ × ℕ) (Center : ℤ) (Width : ℕ) :
    Option Array2D :=
  (build2DHBP getW Dim Center Width).map (fun M => matSub (onesA Dim.1 Dim.2) M)

/-- Trivial stand-in implementation of the external resampling primitive,
used to instantiate witnesses; it satisfies `ResampleOK`. -/
def reStub (w : Array2D) (n : ℕ) : Array2D :=
  List.replicate n (List.replicate (colsOf w) 0)

/-- C7: `applyStack` returns the left fold of the transforms of the stack over
a copy of the data, and an empty stack returns the data unchanged (the numpy
copy makes the returned buffer fresh; at the level of values the fold is over
the data itself). -/
theorem C7_applyStack_fold (Data : Array2D) (Stack : List GFilter) :
    applyStack Data Stack = Stack.foldl (fun a f => f.function a) Data ∧
      applyStack Data [] = Data :=
  ⟨rfl, rfl⟩

/-- C10: a freshly constructed `GFilter` carries the identity transform, and a
stack made only of such unmodified filters leaves the data unchanged under
`applyStack`. -/
theorem C10_default_filter_identity (Data : Array2D) (Stack : List GFilter)
    (h : ∀ g ∈ Stack, ∃ p, g = GFilter.init p) :
    (∀ p, (GFilter.init p).function = fun x => x) ∧
      applyStack Data Stack = Data := by
  refine ⟨fun p => rfl, ?_⟩
  unfold applyStack npCopy
  induction Stack generalizing Data with
  | nil => rfl
  | cons g s ih =>
    obtain ⟨p, hp⟩ := h g (List.mem_cons_self g s)
    have hf : g.function Data = Data := by rw [hp]; rfl
    simpa [hf] using ih Data (fun g hg => h g (List.mem_cons_of_mem _ hg))

theorem C10_default_filter_identity_witness :
    (∀ g ∈ [GFilter.init [("Type", "Low Pass")], GFilter.init []],
        ∃ p, g = GFilter.init p) ∧
      applyStack [[1, 2], [3, 4]]
        [GFilter.init [("Type", "Low Pass")], GFilter.init []] =
        [[1, 2], [3, 4]] := by
  have h : ∀ g ∈ [GFilter.init [("Type", "Low Pass")], GFilter.init []],
      ∃ p, g = GFilter.init p := by
    intro g hg
    simp only [List.mem_cons, List.not_mem_nil, or_false] at hg
    rcases hg with rfl | rfl
    · exact ⟨[("Type", "Low Pass")], rfl⟩
    · exact ⟨[], rfl⟩
  exact ⟨h, (C10_default_filter_identity [[1, 2], [3, 4]] _ h).2⟩

/-- C3 counterexample: at an entry whose absolute value equals the threshold
exactly, `mask` produces 1, while the claim says the mask is 1 only where the
absolute value strictly exceeds the threshold. -/
theorem C3_mask_boundary_counterexample :
    mask [[(1 : ℚ)/10]] ((1 : ℚ)/10) = [[1]] ∧ ¬ ((1 : ℚ)/10 > (1 : ℚ)/10) := by
  constructor
  · norm_num [mask]
    rw [if_neg (by rw [abs_of_nonneg (by norm_num : (0 : ℚ) ≤ 1/10)]; norm_num)]
    norm_num
  · norm_num

/-- C3 amended: for every positive threshold, `mask` is the indicator of
`|v| ≥ threshold` (so entries whose absolute value equals the threshold
exactly are mapped to 1, not 0). -/
theorem C3_mask_ge_threshold (Image : Array2D) (T : ℚ) (hT : 0 < T) :
    mask Image T = Image.map (List.map (fun v => if T ≤ |v| then 1 else 0)) := by
  unfold mask
  simp only [List.map_map]
  refine List.map_congr_left (fun row _ => ?_)
  simp only [Function.comp_apply, List.map_map]
  refine List.map_congr_left (fun v _ => ?_)
  by_cases h : |v| < T
  · have hn : ¬ T ≤ |v| := not_le.mpr h
    simp [Function.comp, h, hn]
  · have hTle : T ≤ |v| := not_lt.mp h
    have hv : (0 : ℚ) < |v| := lt_of_lt_of_le hT hTle
    simp [Function.comp, h, hv, hTle]

theorem C3_mask_ge_threshold_witness :
    (0 : ℚ) < 1 ∧
      mask [[0, 1, 2]] 1 = [[0, 1, 2]].map
        (List.map (fun v => if (1 : ℚ) ≤ |v| then 1 else 0)) :=
  ⟨by norm_num, C3_mask_ge_threshold [[0, 1, 2]] 1 (by norm_num)⟩

/-- C1: evaluation of `computeDCOffset` at a concrete 2×2 array with
`Size = 1`.  All four slice means are taken over regions containing only the
top-left entry 0 (because `[:-Size]` keeps all but the last row or column, not
the last `Size` rows or columns), so nothing is subtracted — whereas the mean
values of the four genuine 1×1 corner blocks are 0, 0, 8, 0, whose average 2
the claim says is subtracted from every element. -/
theorem C1_dcoffset_not_corner_blocks :
    computeDCOffset [[0, 0], [0, 8]] 1 = [[0, 0], [0, 8]] := by
  norm_num [computeDCOffset, meanA, pySlice, pyIdx, List.take]

/-- C8 counterexample: with `Size = 0` every corner slice is empty, so the
subtracted value is not the uniform level (numpy would produce a NaN array; in
the ℚ model the empty means are 0), and the result on a constant array of 5 is
not the all-zero array. -/
theorem C8_const_size_zero_counterexample :
    computeDCOffset (List.replicate 2 (List.replicate 2 (5 : ℚ))) 0 ≠
      List.replicate 2 (List.replicate 2 0) := by
  norm_num [computeDCOffset, meanA, pySlice, pyIdx, List.take, List.replicate]

/-- The normalised slice bound never exceeds the list length. -/
theorem pyIdx_le (n : ℕ) (i : ℤ) : pyIdx n i ≤ n := by
  unfold pyIdx
  split <;> omega

/-- Length of a Python slice in terms of its normalised bounds. -/
theorem length_pySlice (a b : ℤ) (l : List α) :
    (pySlice a b l).length = pyIdx l.length b - pyIdx l.length a := by
  unfold pySlice
  rw [List.length_drop, List.length_take]
  have hb := pyIdx_le l.length b
  omega

/-- Elements of a slice come from the sliced list. -/
theorem mem_of_mem_pySlice {a b : ℤ} {l : List α} {x : α}
    (h : x ∈ pySlice a b l) : x ∈ l := by
  unfold pySlice at h
  exact List.mem_of_mem_take (List.mem_of_mem_drop h)

/-- Rolling preserves the length. -/
theorem length_rollList (k : ℤ) (l : List α) : (rollList k l).length = l.length := by
  unfold rollList
  split
  · rfl
  · rw [List.length_rotate]

/-- Rolling preserves membership. -/
theorem mem_rollList {k : ℤ} {l : List α} {x : α} (h : x ∈ rollList k l) : x ∈ l := by
  unfold rollList at h
  split at h
  · exact h
  · exact List.mem_rotate.mp h

/-- The axis-0 step turns a list of rows whose target difference is
`S0 - length` into a list of exactly `S0` rows. -/
theorem resizeAxis0_length (W : Array2D) (S0 : ℕ) (C : Option (ℤ × ℤ)) :
    (resizeAxis0 W ((S0 : ℤ) - W.length) C).length = S0 := by
  unfold resizeAxis0
  split
  · rw [length_rollList, List.length_append, List.length_replicate]
    omega
  · split
    · rw [length_pySlice]
      unfold pyIdx
      split <;> split <;> omega
    · omega

/-- Every row of the axis-0 result is an original row or a freshly padded
zero row of width `colsOf W`. -/
theorem resizeAxis0_rows (W : Array2D) (d : ℤ) (C : Option (ℤ × ℤ)) :
    ∀ row ∈ resizeAxis0 W d C, row ∈ W ∨ row = List.replicate (colsOf W) 0 := by
  unfold resizeAxis0
  intro row hrow
  split at hrow
  · rcases List.mem_append.mp (mem_rollList hrow) with h | h
    · exact Or.inl h
    · exact Or.inr (List.eq_of_mem_replicate h)
  · split at hrow
    · exact Or.inl (mem_of_mem_pySlice hrow)
    · exact Or.inl hrow

/-- The axis-1 step preserves the number of rows. -/
theorem resizeAxis1_length (W : Array2D) (d : ℤ) (C : Option (ℤ × ℤ)) :
    (resizeAxis1 W d C).length = W.length := by
  unfold resizeAxis1
  split
  · rw [List.length_map, List.length_map]
  · split
    · rw [List.length_map]
    · rfl

/-- The axis-1 step turns every row of length `c` into a row of length `S1`
when the difference passed in is `S1 - c`. -/
theorem resizeAxis1_rows (W : Array2D) (c S1 : ℕ) (C : Option (ℤ × ℤ))
    (hW : ∀ row ∈ W, row.length = c) :
    ∀ row ∈ resizeAxis1 W ((S1 : ℤ) - c) C, row.length = S1 := by
  unfold resizeAxis1
  intro row hrow
  split at hrow
  · rcases List.mem_map.mp hrow with ⟨row1, hrow1, rfl⟩
    rcases List.mem_map.mp hrow1 with ⟨row0, hrow0, rfl⟩
    rw [length_rollList, List.length_append, List.length_replicate, hW row0 hrow0]
    omega
  · split at hrow
    · rcases List.mem_map.mp hrow with ⟨row0, hrow0, rfl⟩
      rw [length_pySlice, hW row0 hrow0]
      unfold pyIdx
      split <;> split <;> omega
    · rw [hW row hrow]
      omega

/-- Shape contract of the geometry resampler: for any implementation of the
external resampling primitive satisfying its shape contract, any rectangular
input and positive target, the output is a rectangular `S0 × S1` array. -/
theorem resize_shape (re : Array2D → ℕ → Array2D) (hre : ResampleOK re)
    (W : Array2D) (hW : Rect W) (S0 S1 : ℕ) (Cont : Bool)
    (Center : Option (ℤ × ℤ)) :
    (resizeToMatch re W (S0, S1) Cont Center).length = S0 ∧
      ∀ row ∈ resizeToMatch re W (S0, S1) Cont Center, row.length = S1 := by
  unfold resizeToMatch
  set W0 := if Cont then re W (W.length * S0 / S1) else W with hW0
  have hW0rect : Rect W0 := by
    rw [hW0]
    split
    · exact (hre _ _).2
    · exact hW
  constructor
  · rw [resizeAxis1_length, resizeAxis0_length]
  · refine resizeAxis1_rows _ (colsOf W0) S1 Center ?_
    intro row hrow
    rcases resizeAxis0_rows W0 _ Center row hrow with h | h
    · exact hW0rect row h
    · rw [h, List.length_replicate]

/-- C4: for every implementation of the external resampling primitive
satisfying its shape contract, every rectangular input with positive
dimensions, every positive target size, both contour policies and any
explicit center, `resizeToMatch` is total and returns an array of exactly the
target shape (this covers all four sign combinations of the two axis
differences). -/
theorem C4_resize_always_target_shape (re : Array2D → ℕ → Array2D)
    (hre : ResampleOK re) (W : Array2D) (hW : Rect W)
    (hr : 0 < W.length) (hc : 0 < colsOf W) (S0 S1 : ℕ)
    (hS0 : 0 < S0) (hS1 : 0 < S1) (Cont : Bool) (Center : Option (ℤ × ℤ)) :
    (resizeToMatch re W (S0, S1) Cont Center).length = S0 ∧
      ∀ row ∈ resizeToMatch re W (S0, S1) Cont Center, row.length = S1 :=
  resize_shape re hre W hW S0 S1 Cont Center

theorem C4_resize_always_target_shape_witness :
    (ResampleOK reStub ∧ Rect [[1, 2], [3, 4]] ∧
        0 < [[(1 : ℚ), 2], [3, 4]].length ∧ 0 < colsOf [[1, 2], [3, 4]] ∧
        0 < 3 ∧ 0 < 1) ∧
      ((resizeToMatch reStub [[1, 2], [3, 4]] (3, 1) true none).length = 3 ∧
        ∀ row ∈ resizeToMatch reStub [[1, 2], [3, 4]] (3, 1) true none,
          row.length = 1) := by
  have hre : ResampleOK reStub := by
    intro w n
    refine ⟨List.length_replicate _ _, ?_⟩
    intro row hrow
    cases n with
    | zero => simp [reStub] at hrow
    | succ m =>
      rw [List.eq_of_mem_replicate hrow, List.length_replicate]
      simp [reStub, colsOf, List.replicate_succ]
  have hW : Rect [[(1 : ℚ), 2], [3, 4]] := by
    intro row hrow
    simp only [List.mem_cons, List.not_mem_nil, or_false] at hrow
    rcases hrow with rfl | rfl <;> rfl
  exact ⟨⟨hre, hW, by decide, by decide, by decide, by decide⟩,
    C4_resize_always_target_shape reStub hre [[1, 2], [3, 4]] hW
      (by decide) (by decide) 3 1 (by decide) (by decide) true none⟩

/-- Entry of a Python slice in terms of the original list, inside bounds. -/
theorem getElem?_pySlice (a b : ℤ) (l : List α) (i : ℕ)
    (h : pyIdx l.length a + i < pyIdx l.length b) :
    (pySlice a b l)[i]? = l[pyIdx l.length a + i]? := by
  unfold pySlice
  rw [List.getElem?_drop, List.getElem?_take, if_pos h]

/-- C5: on each axis whose target is smaller than the current length, the
geometry resampler keeps exactly the central index range
`[-ceil(d/2) : floor(d/2)]`: the output is the `S0 × S1` block of the input
starting at row `(rows - S0) / 2` and column `(cols - S1) / 2`, so
`floor(|d|/2)` cells are removed before the block and `ceil(|d|/2)` after it —
for odd `|d|` the kept block sits one position closer to the start. -/
theorem C5_crop_keeps_central_slice (re : Array2D → ℕ → Array2D)
    (Center : Option (ℤ × ℤ)) (W : Array2D) (S0 S1 : ℕ) (hW : Rect W)
    (hr : S0 < W.length) (hc : S1 < colsOf W) (i j : ℕ) (hi : i < S0) (hj : j < S1) :
    (resizeToMatch re W (S0, S1) false Center).length = S0 ∧
      (∀ row ∈ resizeToMatch re W (S0, S1) false Center, row.length = S1) ∧
      ((resizeToMatch re W (S0, S1) false Center).getD i []).getD j 0 =
        (W.getD (i + (W.length - S0) / 2) []).getD (j + (colsOf W - S1) / 2) 0 := by
  have hres : resizeToMatch re W (S0, S1) false Center =
      resizeAxis1 (resizeAxis0 W ((S0 : ℤ) - W.length) Center)
        ((S1 : ℤ) - colsOf W) Center := by
    simp [resizeToMatch]
  have h0 : resizeAxis0 W ((S0 : ℤ) - W.length) Center =
      pySlice (-(((S0 : ℤ) - W.length + 1) / 2)) (((S0 : ℤ) - W.length) / 2) W := by
    unfold resizeAxis0
    rw [if_neg (by omega), if_pos (by omega)]
  have h1 : resizeAxis1 (pySlice (-(((S0 : ℤ) - W.length + 1) / 2))
        (((S0 : ℤ) - W.length) / 2) W) ((S1 : ℤ) - colsOf W) Center =
      (pySlice (-(((S0 : ℤ) - W.length + 1) / 2)) (((S0 : ℤ) - W.length) / 2) W).map
        (pySlice (-(((S1 : ℤ) - colsOf W + 1) / 2)) (((S1 : ℤ) - colsOf W) / 2)) := by
    unfold resizeAxis1
    rw [if_neg (by omega), if_pos (by omega)]
  rw [hres, h0, h1]
  -- normalised slice offsets on the two axes
  have ha0 : pyIdx W.length (-(((S0 : ℤ) - W.length + 1) / 2)) = (W.length - S0) / 2 := by
    unfold pyIdx
    split <;> omega
  have hb0 : pyIdx W.length (((S0 : ℤ) - W.length) / 2) =
      (W.length - S0) / 2 + S0 := by
    unfold pyIdx
    split <;> omega
  have hrow0 : (W.length - S0) / 2 + i < W.length := by omega
  refine ⟨?_, ?_, ?_⟩
  · rw [List.length_map, length_pySlice, ha0, hb0]
    omega
  · intro row hrow
    rcases List.mem_map.mp hrow with ⟨row0, hrow0m, rfl⟩
    have hlen : row0.length = colsOf W := hW row0 (mem_of_mem_pySlice hrow0m)
    rw [length_pySlice, hlen]
    unfold pyIdx
    split <;> split <;> omega
  · have hiW : i + (W.length - S0) / 2 < W.length := by omega
    have hrowg : W.getD (i + (W.length - S0) / 2) [] = W[i + (W.length - S0) / 2] :=
      List.getD_eq_getElem W [] hiW
    have hrowmem : W.getD (i + (W.length - S0) / 2) [] ∈ W := by
      rw [hrowg]
      exact List.getElem_mem hiW
    have hrowlen : (W.getD (i + (W.length - S0) / 2) []).length = colsOf W :=
      hW _ hrowmem
    have hSi : (pySlice (-(((S0 : ℤ) - W.length + 1) / 2)) (((S0 : ℤ) - W.length) / 2)
        W)[i]? = some (W.getD (i + (W.length - S0) / 2) []) := by
      rw [getElem?_pySlice _ _ _ _ (by rw [ha0, hb0]; omega), ha0,
        Nat.add_comm ((W.length - S0) / 2) i, List.getElem?_eq_getElem hiW, hrowg]
    have hL : (List.map (pySlice (-(((S1 : ℤ) - colsOf W + 1) / 2))
          (((S1 : ℤ) - colsOf W) / 2))
          (pySlice (-(((S0 : ℤ) - W.length + 1) / 2)) (((S0 : ℤ) - W.length) / 2)
            W)).getD i [] =
        pySlice (-(((S1 : ℤ) - colsOf W + 1) / 2)) (((S1 : ℤ) - colsOf W) / 2)
          (W.getD (i + (W.length - S0) / 2) []) := by
      rw [List.getD_eq_getElem?_getD
        (List.map (pySlice (-(((S1 : ℤ) - colsOf W + 1) / 2))
          (((S1 : ℤ) - colsOf W) / 2))
          (pySlice (-(((S0 : ℤ) - W.length + 1) / 2)) (((S0 : ℤ) - W.length) / 2) W))
        i [], List.getElem?_map, hSi]
      rfl
    rw [hL]
    have ha1 : pyIdx (W.getD (i + (W.length - S0) / 2) []).length
        (-(((S1 : ℤ) - colsOf W + 1) / 2)) = (colsOf W - S1) / 2 := by
      rw [hrowlen]
      unfold pyIdx
      split <;> omega
    have hb1 : pyIdx (W.getD (i + (W.length - S0) / 2) []).length
        (((S1 : ℤ) - colsOf W) / 2) = (colsOf W - S1) / 2 + S1 := by
      rw [hrowlen]
      unfold pyIdx
      split <;> omega
    rw [List.getD_eq_getElem?_getD
      (pySlice (-(((S1 : ℤ) - colsOf W + 1) / 2)) (((S1 : ℤ) - colsOf W) / 2)
        (W.getD (i + (W.length - S0) / 2) [])) j 0,
      getElem?_pySlice _ _ _ _ (by rw [ha1, hb1]; omega), ha1,
      Nat.add_comm ((colsOf W - S1) / 2) j,
      List.getD_eq_getElem?_getD (W.getD (i + (W.length - S0) / 2) []) _ 0]
  -- index arithmetic: the kept row block is [(rows-S0)/2, (rows-S0)/2 + S0)

theorem C5_crop_keeps_central_slice_witness :
    (Rect [[(1 : ℚ), 2, 3], [4, 5, 6], [7, 8, 9]] ∧
        2 < [[(1 : ℚ), 2, 3], [4, 5, 6], [7, 8, 9]].length ∧
        2 < colsOf [[(1 : ℚ), 2, 3], [4, 5, 6], [7, 8, 9]] ∧ 0 < 2 ∧ 0 < 2) ∧
      ((resizeToMatch reStub [[(1 : ℚ), 2, 3], [4, 5, 6], [7, 8, 9]] (2, 2)
          false none).length = 2 ∧
        (∀ row ∈ resizeToMatch reStub [[(1 : ℚ), 2, 3], [4, 5, 6], [7, 8, 9]] (2, 2)
            false none, row.length = 2) ∧
        ((resizeToMatch reStub [[(1 : ℚ), 2, 3], [4, 5, 6], [7, 8, 9]] (2, 2)
            false none).getD 0 []).getD 0 0 =
          (([[(1 : ℚ), 2, 3], [4, 5, 6], [7, 8, 9]].getD
              (0 + ([[(1 : ℚ), 2, 3], [4, 5, 6], [7, 8, 9]].length - 2) / 2) []).getD
            (0 + (colsOf [[(1 : ℚ), 2, 3], [4, 5, 6], [7, 8, 9]] - 2) / 2) 0)) := by
  have hW : Rect [[(1 : ℚ), 2, 3], [4, 5, 6], [7, 8, 9]] := by
    intro row hrow
    simp only [List.mem_cons, List.not_mem_nil, or_false] at hrow
    rcases hrow with rfl | rfl | rfl <;> rfl
  exact ⟨⟨hW, by decide, by decide, by decide, by decide⟩,
    C5_crop_keeps_central_slice reStub none _ 2 2 hW (by decide) (by decide)
      0 0 (by decide) (by decide)⟩

/-- Row-level complement: a row plus its pointwise complement against ones is
the row of ones. -/
theorem zipWith_add_sub_ones (row : List ℚ) (c : ℕ) (h : row.length = c) :
    List.zipWith (· + ·) row
      (List.zipWith (· - ·) (List.replicate c 1) row) =
      List.replicate c 1 := by
  subst h
  induction row with
  | nil => rfl
  | cons a l ih =>
    simp only [List.length_cons, List.replicate_succ, List.zipWith_cons_cons, ih]
    congr 1
    ring

/-- Matrix-level complement: `M + (ones - M) = ones` for `M` of shape `r × c`. -/
theorem matAdd_matSub_onesA (M : Array2D) (r c : ℕ) (hlen : M.length = r)
    (hrow : ∀ row ∈ M, row.length = c) :
    matAdd M (matSub (onesA r c) M) = onesA r c := by
  subst hlen
  induction M with
  | nil => rfl
  | cons row rest ih =>
    have h1 : row.length = c := hrow row (List.mem_cons_self row rest)
    have hones : onesA (row :: rest).length c =
        List.replicate c 1 :: onesA rest.length c := rfl
    rw [hones]
    show List.zipWith (· + ·) row
        (List.zipWith (· - ·) (List.replicate c 1) row) ::
        matAdd rest (matSub (onesA rest.length c) rest) =
      List.replicate c 1 :: onesA rest.length c
    rw [zipWith_add_sub_ones row c h1,
      ih (fun q hq => hrow q (List.mem_cons_of_mem _ hq))]

/-- A map whose image rows all have length `k` is rectangular. -/
theorem rect_of_rows_length (l : List α) (f : α → List ℚ) (k : ℕ)
    (hf : ∀ a ∈ l, (f a).length = k) : Rect (l.map f) := by
  intro row hrow
  rcases List.mem_map.mp hrow with ⟨a, ha, rfl⟩
  cases l with
  | nil => simp at ha
  | cons x xs =>
    have hx : colsOf ((x :: xs).map f) = k := by
      simp [colsOf, hf x (List.mem_cons_self x xs)]
    rw [hx, hf a ha]

/-- The rotational construction always produces a rectangular
`Diameter × Diameter` array, whatever the external primitives compute. -/
theorem radialWindow_shape (sqrtE : ℚ → ℚ) (interpE : List ℚ → List ℚ → ℚ → ℚ)
    (window1 : List ℚ) (D : ℕ) :
    (radialWindow sqrtE interpE window1 D).length = D ∧
      Rect (radialWindow sqrtE interpE window1 D) := by
  unfold radialWindow
  constructor
  · simp
  · exact rect_of_rows_length (List.range D) _ D (fun a _ => by simp)

/-- The outer-product construction is rectangular and square. -/
theorem outerWindow_shape (window1 : List ℚ) :
    (outerWindow window1).length = window1.length ∧ Rect (outerWindow window1) := by
  unfold outerWindow
  constructor
  · simp
  · exact rect_of_rows_length window1 _ window1.length (fun a _ => by simp)

/-- Inversion of a successful vertical band-pass construction: the result is
`Dim.1` copies of one line of length `Dim.2`. -/
theorem build2DVBP_some_shape {getW : ℕ → List ℚ} {Dim : ℕ × ℕ} {Center : ℤ}
    {Width : ℕ} {M : Array2D} (h : build2DVBP getW Dim Center Width = some M) :
    ∃ line, M = List.replicate Dim.1 line ∧ line.length = Dim.2 := by
  unfold build2DVBP at h
  split at h
  · exact absurd h (by simp)
  · split at h
    next hlen => exact ⟨_, (Option.some.inj h).symm, hlen⟩
    next hlen => exact absurd h (by simp)

/-- Shape of the transpose of an array. -/
theorem transposeA_shape (M : Array2D) :
    (transposeA M).length = colsOf M ∧
      ∀ row ∈ transposeA M, row.length = M.length := by
  constructor
  · simp [transposeA]
  · intro row hrow
    rcases List.mem_map.mp hrow with ⟨j, _, rfl⟩
    simp

/-- C6: every pass filter and the stop filter built from identical parameters
sum elementwise to the all-ones array of shape `Dim`: low/high pass, circular
band pass/stop, and the vertical and horizontal band pass/stop pairs (the
latter two whenever the band-pass construction succeeds, since the stop
filter is `ones - pass` and fails exactly when the pass construction does). -/
theorem C6_pass_stop_complements (getW : ℕ → List ℚ) (sqrtE : ℚ → ℚ)
    (interpE : List ℚ → List ℚ → ℚ → ℚ) (re : Array2D → ℕ → Array2D)
    (hre : ResampleOK re) (D1 D2 : ℕ) (hD1 : 0 < D1) (hD2 : 0 < D2)
    (Diameter Width : ℕ) (Outer Cont : Bool) (Center : ℤ) (MV MH : Array2D)
    (hv : build2DVBP getW (D1, D2) Center Width = some MV)
    (hh : build2DHBP getW (D1, D2) Center Width = some MH) :
    matAdd (build2DLP getW sqrtE interpE re (D1, D2) Diameter Outer Cont)
        (build2DHP getW sqrtE interpE re (D1, D2) Diameter Outer Cont) =
      onesA D1 D2 ∧
    matAdd (build2DBP getW sqrtE interpE re (D1, D2) Diameter Width Cont)
        (build2DBS getW sqrtE interpE re (D1, D2) Diameter Width Cont) =
      onesA D1 D2 ∧
    (build2DVBS getW (D1, D2) Center Width = some (matSub (onesA D1 D2) MV) ∧
      matAdd MV (matSub (onesA D1 D2) MV) = onesA D1 D2) ∧
    (build2DHBS getW (D1, D2) Center Width = some (matSub (onesA D1 D2) MH) ∧
      matAdd MH (matSub (onesA D1 D2) MH) = onesA D1 D2) := by
  refine ⟨?_, ?_, ⟨?_, ?_⟩, ⟨?_, ?_⟩⟩
  · -- low pass plus high pass
    have hLP : (build2DLP getW sqrtE interpE re (D1, D2) Diameter Outer Cont).length
          = D1 ∧
        ∀ row ∈ build2DLP getW sqrtE interpE re (D1, D2) Diameter Outer Cont,
          row.length = D2 := by
      unfold build2DLP
      cases Outer
      · exact resize_shape re hre _ (radialWindow_shape sqrtE interpE _ _).2 D1 D2
          Cont none
      · exact resize_shape re hre _ (outerWindow_shape _).2 D1 D2 Cont none
    exact matAdd_matSub_onesA _ D1 D2 hLP.1 hLP.2
  · -- band pass plus band stop
    have hBP : (build2DBP getW sqrtE interpE re (D1, D2) Diameter Width Cont).length
          = D1 ∧
        ∀ row ∈ build2DBP getW sqrtE interpE re (D1, D2) Diameter Width Cont,
          row.length = D2 := by
      unfold build2DBP
      exact resize_shape re hre _ (radialWindow_shape sqrtE interpE _ _).2 D1 D2
        Cont none
    exact matAdd_matSub_onesA _ D1 D2 hBP.1 hBP.2
  · -- vertical band stop is the complement of the successful band pass
    unfold build2DVBS
    rw [hv]
    rfl
  · rcases build2DVBP_some_shape hv with ⟨line, rfl, hlen⟩
    refine matAdd_matSub_onesA _ D1 D2 (List.length_replicate _ _) ?_
    intro row hrow
    rw [List.eq_of_mem_replicate hrow, hlen]
  · -- horizontal band stop is the complement of the successful band pass
    unfold build2DHBS
    rw [hh]
    rfl
  · rcases Option.map_eq_some'.mp hh with ⟨M0, hM0, rfl⟩
    rcases build2DVBP_some_shape hM0 with ⟨line0, rfl, hlen0⟩
    have hcols : colsOf (List.replicate D2 line0) = D1 := by
      cases D2 with
      | zero => omega
      | succ m => rw [List.replicate_succ]; exact hlen0
    refine matAdd_matSub_onesA _ D1 D2 ?_ ?_
    · rw [(transposeA_shape _).1, hcols]
    · intro row hrow
      rw [(transposeA_shape _).2 row hrow, List.length_replicate]

/-- C9: with `Width = Diameter > 0` the band-pass builder degenerates to the
rotational low-pass builder: the left zero padding of the profile is empty
and both perform the identical radial interpolation followed by the same
resize, for every window family, target shape, contour flag and every
implementation of the external primitives. -/
theorem C9_bp_full_width_is_lp (getW : ℕ → List ℚ) (sqrtE : ℚ → ℚ)
    (interpE : List ℚ → List ℚ → ℚ → ℚ) (re : Array2D → ℕ → Array2D)
    (Dim : ℕ × ℕ) (D : ℕ) (hD : 0 < D) (hgW : (getW D).length = D) (Cont : Bool) :
    build2DBP getW sqrtE interpE re Dim D D Cont =
      build2DLP getW sqrtE interpE re Dim D false Cont := by
  unfold build2DBP build2DLP
  rw [if_neg (by omega : ¬ D = 0)]
  simp [hgW]

theorem C9_bp_full_width_is_lp_witness :
    ((0 : ℕ) < 2 ∧
        ((fun n => List.replicate n (1 : ℚ)) 2).length = 2) ∧
      build2DBP (fun n => List.replicate n (1 : ℚ)) (fun q => q)
          (fun _ _ _ => 0) reStub (3, 3) 2 2 false =
        build2DLP (fun n => List.replicate n (1 : ℚ)) (fun q => q)
          (fun _ _ _ => 0) reStub (3, 3) 2 false false :=
  ⟨⟨by decide, by simp⟩,
    C9_bp_full_width_is_lp (fun n => List.replicate n (1 : ℚ)) (fun q => q)
      (fun _ _ _ => 0) reStub (3, 3) 2 (by decide) (by simp) false⟩

/-- C2: evaluation of `build2DVBP` with the boxcar profile on `Dim = (2, 8)`,
`Center = 4`, `Width = 3`.  The constructed stripe occupies columns 0..2,
i.e. it is centered on column `Center - Width = 1`, not on column 4 as the
claim (and the function's own docstring) require; a stripe centered on
column 4 would be `[0, 0, 0, 1, 1, 1, 0, 0]`. -/
theorem C2_vbp_stripe_not_centered :
    build2DVBP (fun n => List.replicate n (1 : ℚ)) (2, 8) 4 3 =
      some (List.replicate 2 [1, 1, 1, 0, 0, 0, 0, 0]) := by
  norm_num [build2DVBP, vbpLine, List.replicate]

/-- A Python slice of a constant list is a constant list. -/
theorem pySlice_replicate (a b : ℤ) (n : ℕ) (v : α) :
    pySlice a b (List.replicate n v) =
      List.replicate (pyIdx n b - pyIdx n a) v := by
  unfold pySlice
  rw [List.length_replicate, List.take_replicate, List.drop_replicate]
  congr 1
  have := pyIdx_le n b
  omega

/-- The mean of a nonempty constant block is its constant value. -/
theorem meanA_replicate (p q : ℕ) (x : ℚ) (hp : 0 < p) (hq : 0 < q) :
    meanA (List.replicate p (List.replicate q x)) = x := by
  unfold meanA
  rw [List.map_replicate, List.map_replicate, List.sum_replicate, List.sum_replicate,
    List.sum_replicate, List.length_replicate, smul_smul, nsmul_eq_mul, nsmul_eq_mul]
  have hp0 : ((p : ℚ)) ≠ 0 := Nat.cast_ne_zero.mpr (by omega)
  have hq0 : ((q : ℚ)) ≠ 0 := Nat.cast_ne_zero.mpr (by omega)
  push_cast
  field_simp

/-- C8 amended: `computeDCOffset` on a constant array of value 5 returns the
all-zero array for every `Size` with `1 ≤ Size < rows` and `Size < cols` (so
that all four sampled regions are nonempty); outside that range the
subtracted value involves the mean of an empty slice and the result is not
the zero array. -/
theorem C8_dc_const_zero_amended (r c : ℕ) (S : ℤ) (h1 : 1 ≤ S)
    (h2 : S < (r : ℤ)) (h3 : S < (c : ℤ)) :
    computeDCOffset (List.replicate r (List.replicate c 5)) S =
      List.replicate r (List.replicate c 0) := by
  unfold computeDCOffset
  have hc1 : meanA ((pySlice 0 S (List.replicate r (List.replicate c (5 : ℚ)))).map
      (pySlice 0 S)) = 5 := by
    rw [pySlice_replicate, List.map_replicate, pySlice_replicate]
    exact meanA_replicate _ _ 5
      (by unfold pyIdx; split_ifs <;> omega) (by unfold pyIdx; split_ifs <;> omega)
  have hc2 : meanA ((pySlice 0 (-S) (List.replicate r (List.replicate c (5 : ℚ)))).map
      (pySlice 0 S)) = 5 := by
    rw [pySlice_replicate, List.map_replicate, pySlice_replicate]
    exact meanA_replicate _ _ 5
      (by unfold pyIdx; split_ifs <;> omega) (by unfold pyIdx; split_ifs <;> omega)
  have hc3 : meanA ((pySlice 0 (-S) (List.replicate r (List.replicate c (5 : ℚ)))).map
      (pySlice 0 (-S))) = 5 := by
    rw [pySlice_replicate, List.map_replicate, pySlice_replicate]
    exact meanA_replicate _ _ 5
      (by unfold pyIdx; split_ifs <;> omega) (by unfold pyIdx; split_ifs <;> omega)
  have hc4 : meanA ((pySlice 0 S (List.replicate r (List.replicate c (5 : ℚ)))).map
      (pySlice 0 (-S))) = 5 := by
    rw [pySlice_replicate, List.map_replicate, pySlice_replicate]
    exact meanA_replicate _ _ 5
      (by unfold pyIdx; split_ifs <;> omega) (by unfold pyIdx; split_ifs <;> omega)
  rw [hc1, hc2, hc3, hc4]
  norm_num [List.map_replicate]

theorem C8_dc_const_zero_amended_witness :
    ((1 : ℤ) ≤ 1 ∧ (1 : ℤ) < ((2 : ℕ) : ℤ) ∧ (1 : ℤ) < ((2 : ℕ) : ℤ)) ∧
      computeDCOffset (List.replicate 2 (List.replicate 2 5)) 1 =
        List.replicate 2 (List.replicate 2 0) :=
  ⟨⟨by norm_num, by norm_num, by norm_num⟩,
    C8_dc_const_zero_amended 2 2 1 (by norm_num) (by norm_num) (by norm_num)⟩

/-- The stand-in resampler satisfies the shape contract. -/
theorem reStub_resampleOK : ResampleOK reStub := by
  intro w n
  refine ⟨List.length_replicate _ _, ?_⟩
  intro row hrow
  cases n with
  | zero => simp [reStub] at hrow
  | succ m =>
    rw [List.eq_of_mem_replicate hrow, List.length_replicate]
    simp [reStub, colsOf, List.replicate_succ]

theorem C6_pass_stop_complements_witness :
    (ResampleOK reStub ∧ (0 : ℕ) < 2 ∧ (0 : ℕ) < 2 ∧
        build2DVBP (fun n => List.replicate n (1 : ℚ)) (2, 2) 1 1 =
          some [[1, 0], [1, 0]] ∧
        build2DHBP (fun n => List.replicate n (1 : ℚ)) (2, 2) 1 1 =
          some [[1, 1], [0, 0]]) ∧
      (matAdd (build2DLP (fun n => List.replicate n (1 : ℚ)) (fun q => q)
            (fun _ _ _ => 0) reStub (2, 2) 1 false false)
          (build2DHP (fun n => List.replicate n (1 : ℚ)) (fun q => q)
            (fun _ _ _ => 0) reStub (2, 2) 1 false false) = onesA 2 2 ∧
        matAdd (build2DBP (fun n => List.replicate n (1 : ℚ)) (fun q => q)
            (fun _ _ _ => 0) reStub (2, 2) 1 1 false)
          (build2DBS (fun n => List.replicate n (1 : ℚ)) (fun q => q)
            (fun _ _ _ => 0) reStub (2, 2) 1 1 false) = onesA 2 2 ∧
        (build2DVBS (fun n => List.replicate n (1 : ℚ)) (2, 2) 1 1 =
            some (matSub (onesA 2 2) [[1, 0], [1, 0]]) ∧
          matAdd [[1, 0], [1, 0]] (matSub (onesA 2 2) [[1, 0], [1, 0]]) =
            onesA 2 2) ∧
        (build2DHBS (fun n => List.replicate n (1 : ℚ)) (2, 2) 1 1 =
            some (matSub (onesA 2 2) [[1, 1], [0, 0]]) ∧
          matAdd [[1, 1], [0, 0]] (matSub (onesA 2 2) [[1, 1], [0, 0]]) =
            onesA 2 2)) := by
  have hv : build2DVBP (fun n => List.replicate n (1 : ℚ)) (2, 2) 1 1 =
      some [[1, 0], [1, 0]] := by
    norm_num [build2DVBP, vbpLine, List.replicate]
  have hh : build2DHBP (fun n => List.replicate n (1 : ℚ)) (2, 2) 1 1 =
      some [[1, 1], [0, 0]] := by
    norm_num [build2DHBP, build2DVBP, vbpLine, transposeA, colsOf, List.replicate,
      List.range_succ]
  exact ⟨⟨reStub_resampleOK, by norm_num, by norm_num, hv, hh⟩,
    C6_pass_stop_complements (fun n => List.replicate n (1 : ℚ)) (fun q => q)
      (fun _ _ _ => 0) reStub reStub_resampleOK 2 2 (by norm_num) (by norm_num)
      1 1 false false 1 [[1, 0], [1, 0]] [[1, 1], [0, 0]] hv hh⟩
